import Mathlib

/-!
Verification model of the aya-log user-space decode engine
(`src/aya-log/src/lib.rs`): the TLV value reader `try_read`, the header
decoder, the argument decoder with pending display hints, the per-type
`Format` dispatch, and the record emitter of `log_buf`.

Byte buffers are `List Nat` (one entry per byte).  Multi-byte integers are
read in little-endian order, the native byte order of the reference
platform (the spec fixes native byte order shared between producer and
decoder, with no negotiation).

The wire constants (tag widths, the length-field width, the numeric codes
of the record-field / argument / display-hint / level enums) live in the
companion crate `aya-log-common`, which is not part of `src/`.  They are
modelled from the spec: fixed-width codes shared with the producer, six
header fields, a seven-way display-hint enum, a five-way level ordinal,
with `Line` a 4-byte integer and `NumArgs` a platform-width (8-byte)
integer.  Concrete code assignments are chosen once and used consistently
by the decoder and by the in-model producer-side encoders.
-/

/-- A byte buffer, as the Rust code's `&[u8]` slices.  Well-formed wire
bytes are `< 256`; the model never relies on that except through explicit
hypotheses. -/
abbrev Buf := List Nat

/-- Little-endian `from_ne_bytes`: the value of a byte list read as a
native-endian unsigned integer. -/
def bytesToNat : Buf → Nat
  | [] => 0
  | b :: bs => b + 256 * bytesToNat bs

/-- Little-endian encoding of `n` into exactly `k` bytes (the in-model
producer side of `from_ne_bytes`). -/
def natToBytes : Nat → Nat → Buf
  | 0, _ => []
  | k + 1, n => n % 256 :: natToBytes k (n / 256)

/-- Two's-complement reading of a byte list as a signed integer
(`iN::from_ne_bytes`). -/
def intFromBytes (value : Buf) : Int :=
  let n := bytesToNat value
  if n < 2 ^ (8 * value.length - 1) then (n : Int) else (n : Int) - 2 ^ (8 * value.length)

/-- The UTF-8 bytes of an ASCII string literal, used to write concrete
buffers and expected messages.  (Rust `String`s are modelled by their
UTF-8 byte content; all formatter output is ASCII.) -/
def ascii (s : String) : Buf := s.data.map Char.toNat

/-- Whether `b` is a UTF-8 continuation byte (`0x80..=0xBF`). -/
def isCont (b : Nat) : Bool := decide (128 ≤ b ∧ b ≤ 191)

/-- `str::from_utf8` validation: strict UTF-8 (rejecting overlong forms,
surrogates and code points above `0x10FFFF`), as checked by the Rust
standard library. -/
def utf8Valid : Buf → Bool
  | [] => true
  | b :: rest =>
    if b ≤ 127 then utf8Valid rest
    else if 194 ≤ b ∧ b ≤ 223 then
      match rest with
      | b1 :: rest1 => isCont b1 && utf8Valid rest1
      | [] => false
    else if 224 ≤ b ∧ b ≤ 239 then
      match rest with
      | b1 :: b2 :: rest2 =>
        (if b = 224 then decide (160 ≤ b1 ∧ b1 ≤ 191)
         else if b = 237 then decide (128 ≤ b1 ∧ b1 ≤ 159)
         else isCont b1) && isCont b2 && utf8Valid rest2
      | _ => false
    else if 240 ≤ b ∧ b ≤ 244 then
      match rest with
      | b1 :: b2 :: b3 :: rest3 =>
        (if b = 240 then decide (144 ≤ b1 ∧ b1 ≤ 191)
         else if b = 244 then decide (128 ≤ b1 ∧ b1 ≤ 143)
         else isCont b1) && isCont b2 && isCont b3 && utf8Valid rest3
      | _ => false
    else false

/-- The five severity ordinals of `aya_log_common::Level` /
`log::Level`. -/
inductive LogLevel where
  | error
  | warn
  | info
  | debug
  | trace
deriving DecidableEq

/-- The seven-way display-hint enum (`aya_log_common::DisplayHint`). -/
inductive DisplayHint where
  | default
  | lowerHex
  | upperHex
  | ipv4
  | ipv6
  | lowerMac
  | upperMac
deriving DecidableEq

/-- The six header field tags (`aya_log_common::RecordField`). -/
inductive RecordFieldTag where
  | target
  | level
  | module
  | file
  | line
  | numArgs
deriving DecidableEq

/-- The argument type tags (`aya_log_common::Argument`). -/
inductive ArgTag where
  | displayHint
  | i8
  | i16
  | i32
  | i64
  | isize
  | u8
  | u16
  | u32
  | u64
  | usize
  | f32
  | f64
  | arrU8Len6
  | arrU8Len16
  | arrU16Len8
  | bytes
  | str
deriving DecidableEq

/-- Modelled from the spec: the length-field width of a wire triple
(`aya_log_common::LogValueLength`), a fixed-width unsigned integer shared
with the producer; two bytes in this model. -/
def logValueLengthSize : Nat := 2

/-- Modelled from the spec: the fixed tag width of a header triple
(the `RecordField` code), eight bytes (platform-width). -/
def recordTagSize : Nat := 8

/-- Modelled from the spec: the fixed tag width of an argument triple
(the `Argument` code), eight bytes (platform-width). -/
def argTagSize : Nat := 8

/-- `aya_log_common::LOG_FIELDS`: the count of mandatory header triples. -/
def LOG_FIELDS : Nat := 6

/-- Modelled from the spec: the numeric code of each record-field tag. -/
def recordFieldCode : RecordFieldTag → Nat
  | .target => 1
  | .level => 2
  | .module => 3
  | .file => 4
  | .line => 5
  | .numArgs => 6

/-- Decoding a raw tag value into a record-field tag; `none` means the bit
pattern is not a valid `RecordField` (reading it as the enum in the Rust
code is undefined behaviour). -/
def decodeRecordField (n : Nat) : Option RecordFieldTag :=
  if n = 1 then some .target
  else if n = 2 then some .level
  else if n = 3 then some .module
  else if n = 4 then some .file
  else if n = 5 then some .line
  else if n = 6 then some .numArgs
  else none

/-- Modelled from the spec: the numeric code of each argument tag. -/
def argCode : ArgTag → Nat
  | .displayHint => 0
  | .i8 => 1
  | .i16 => 2
  | .i32 => 3
  | .i64 => 4
  | .isize => 5
  | .u8 => 6
  | .u16 => 7
  | .u32 => 8
  | .u64 => 9
  | .usize => 10
  | .f32 => 11
  | .f64 => 12
  | .arrU8Len6 => 13
  | .arrU8Len16 => 14
  | .arrU16Len8 => 15
  | .bytes => 16
  | .str => 17

/-- Decoding a raw tag value into an argument tag (`none` = invalid bit
pattern for the enum, undefined behaviour in the Rust code). -/
def decodeArgTag (n : Nat) : Option ArgTag :=
  if n = 0 then some .displayHint
  else if n = 1 then some .i8
  else if n = 2 then some .i16
  else if n = 3 then some .i32
  else if n = 4 then some .i64
  else if n = 5 then some .isize
  else if n = 6 then some .u8
  else if n = 7 then some .u16
  else if n = 8 then some .u32
  else if n = 9 then some .u64
  else if n = 10 then some .usize
  else if n = 11 then some .f32
  else if n = 12 then some .f64
  else if n = 13 then some .arrU8Len6
  else if n = 14 then some .arrU8Len16
  else if n = 15 then some .arrU16Len8
  else if n = 16 then some .bytes
  else if n = 17 then some .str
  else none

/-- Modelled from the spec: the one-byte payload code of each display
hint. -/
def hintCode : DisplayHint → Nat
  | .default => 1
  | .lowerHex => 2
  | .upperHex => 3
  | .ipv4 => 4
  | .ipv6 => 5
  | .lowerMac => 6
  | .upperMac => 7

/-- Decoding a display-hint payload byte (`none` = invalid bit pattern,
undefined behaviour at the `ptr::read_unaligned` in the Rust code). -/
def decodeHint (n : Nat) : Option DisplayHint :=
  if n = 1 then some .default
  else if n = 2 then some .lowerHex
  else if n = 3 then some .upperHex
  else if n = 4 then some .ipv4
  else if n = 5 then some .ipv6
  else if n = 6 then some .lowerMac
  else if n = 7 then some .upperMac
  else none

/-- Modelled from the spec: the one-byte ordinal of each severity level
(five ordinals; `none` = out-of-range ordinal, undefined behaviour at the
`ptr::read_unaligned` in the Rust code). -/
def decodeLevel (n : Nat) : Option LogLevel :=
  if n = 1 then some .error
  else if n = 2 then some .warn
  else if n = 3 then some .info
  else if n = 4 then some .debug
  else if n = 5 then some .trace
  else none

/-- How a run of `log_buf` can end: `Ok(())`, `Err(())`, or an execution
of one of the unchecked `ptr::read_unaligned` enum reinterpretations on an
out-of-range bit pattern or out-of-bounds position (undefined behaviour in
the Rust source, a distinguished outcome in the model). -/
inductive Fault where
  | err
  | ub
deriving DecidableEq

/-- Result of a decoding step: a value, or a fault. -/
inductive Res (α : Type) where
  | ok (a : α)
  | fail (f : Fault)
deriving DecidableEq

/-- The assembled log event handed to the sink (`log::Record`): target,
level, optional module path, optional file, optional line, and the fully
rendered message.  Strings are carried as their UTF-8 bytes. -/
structure LogEvent where
  target : Buf
  level : LogLevel
  module : Option Buf
  file : Option Buf
  line : Option Nat
  msg : Buf
deriving DecidableEq

/-- One observable call made while decoding a buffer: the injected sink's
`log` and `flush` operations, or the out-of-band fallback diagnostic path
(the `error!` macro, which goes to the global logger). -/
inductive SinkCall where
  | log (ev : LogEvent)
  | flush
  | fallback (msg : Buf)
deriving DecidableEq

/-- Outcome of `log_buf`: success, `Err(())`, or reached undefined
behaviour. -/
inductive Outcome where
  | ok
  | err
  | ub
deriving DecidableEq

/-- The full observable result of one `log_buf` call: its outcome and the
ordered list of calls it made. -/
structure RunResult where
  outcome : Outcome
  calls : List SinkCall
deriving DecidableEq

/-- The outcome corresponding to a fault. -/
def faultOutcome : Fault → Outcome
  | .err => .err
  | .ub => .ub

/-- `try_read<T: Pod>` (src/aya-log/src/lib.rs:571): from the front of
`buf`, read a fixed-width tag, then a fixed-width little-endian length,
then exactly `length` value bytes; return the tag, the value slice and
the remaining slice.  Fails with `Err(())` when fewer bytes remain than
the tag plus length-field widths, or than the declared value length.
`decodeTag` models the `Pod` reinterpretation of the tag bytes: for a
genuine plain-old-data type it is total; the enum wrappers used by
`log_buf` make it partial, and an invalid bit pattern is undefined
behaviour (`.fail .ub`). -/
def try_read {T : Type} (tagSize : Nat) (decodeTag : Nat → Option T) (buf : Buf) :
    Res (T × Buf × Buf) :=
  if buf.length < tagSize + logValueLengthSize then .fail .err
  else
    match decodeTag (bytesToNat (buf.take tagSize)) with
    | none => .fail .ub
    | some tag =>
      let afterTag := buf.drop tagSize
      let len := bytesToNat (afterTag.take logValueLengthSize)
      let afterLen := afterTag.drop logValueLengthSize
      if afterLen.length < len then .fail .err
      else .ok (tag, afterLen.take len, afterLen.drop len)

/-- The six header variables of `log_buf` (src/aya-log/src/lib.rs:403),
all initially `None`. -/
structure Header where
  target : Option Buf
  level : Option LogLevel
  module : Option Buf
  file : Option Buf
  line : Option Nat
  num_args : Option Nat
deriving DecidableEq

/-- The initial header state: all six variables `None`. -/
def initHeader : Header := ⟨none, none, none, none, none, none⟩

/-- The header-loop body of `log_buf` (src/aya-log/src/lib.rs:413): one
triple dispatched on its record-field tag.  `rest` is the buffer that
follows the value slice: the `Level` arm reads one byte at
`value.as_ptr()` via `ptr::read_unaligned` without checking the value
width, so with an empty value it reads the byte that follows (or past the
buffer: undefined behaviour). -/
def headerStep (h : Header) (tag : RecordFieldTag) (value rest : Buf) : Res Header :=
  match tag with
  | .target => if utf8Valid value then .ok { h with target := some value } else .fail .err
  | .level =>
    match value ++ rest with
    | [] => .fail .ub
    | b :: _ =>
      match decodeLevel b with
      | some l => .ok { h with level := some l }
      | none => .fail .ub
  | .module => if utf8Valid value then .ok { h with module := some value } else .fail .err
  | .file => if utf8Valid value then .ok { h with file := some value } else .fail .err
  | .line =>
    if value.length = 4 then .ok { h with line := some (bytesToNat value) } else .fail .err
  | .numArgs =>
    if value.length = 8 then .ok { h with num_args := some (bytesToNat value) } else .fail .err

/-- The `for _ in 0..LOG_FIELDS` header loop of `log_buf`
(src/aya-log/src/lib.rs:410): consume `n` triples via `try_read`,
dispatching each with `headerStep`; return the final header state and the
remaining buffer. -/
def headerLoop : Nat → Header → Buf → Res (Header × Buf)
  | 0, h, buf => .ok (h, buf)
  | n + 1, h, buf =>
    match try_read recordTagSize decodeRecordField buf with
    | .fail f => .fail f
    | .ok (tag, value, rest) =>
      match headerStep h tag value rest with
      | .fail f => .fail f
      | .ok h1 => headerLoop n h1 rest

/-- One digit rendered as an ASCII byte, lowercase or uppercase for
values `10..15`. -/
def digitByte (lower : Bool) (d : Nat) : Nat :=
  if d < 10 then 48 + d else (if lower then 87 else 55) + d

/-- The base-`b` digits of `n`, most significant first, by fuelled
division (fuel `n + 1` always suffices). -/
def natToBase (b : Nat) : Nat → Nat → List Nat → List Nat
  | 0, n, acc => n :: acc
  | fuel + 1, n, acc => if n < b then n :: acc else natToBase b fuel (n / b) (n % b :: acc)

/-- Decimal rendering of a natural (`ToString` / `{}` for unsigned
integers). -/
def natDec (n : Nat) : Buf := (natToBase 10 n n []).map (digitByte true)

/-- Decimal rendering of an integer (`ToString` for signed integers):
a `-` sign followed by the digits of the absolute value. -/
def intDec (i : Int) : Buf := if i < 0 then 45 :: natDec i.natAbs else natDec i.toNat

/-- Lowercase hex rendering without padding (`LowerHexFormatter`,
`format!("{v:x}")`). -/
def hexLower (n : Nat) : Buf := (natToBase 16 n n []).map (digitByte true)

/-- Uppercase hex rendering without padding (`UpperHexFormatter`,
`format!("{v:X}")`). -/
def hexUpper (n : Nat) : Buf := (natToBase 16 n n []).map (digitByte false)

/-- Two-digit zero-padded hex of one byte, as in the MAC formatters'
`{:02x}` / `{:02X}`. -/
def hexPad2 (lower : Bool) (b : Nat) : Buf :=
  [digitByte lower (b / 16 % 16), digitByte lower (b % 16)]

/-- `LowerMacFormatter` / `UpperMacFormatter`
(src/aya-log/src/lib.rs:224): colon-separated two-digit hex octets. -/
def macBytes (lower : Bool) (v : Buf) : Buf :=
  match v with
  | [a, b, c, d, e, f] =>
    hexPad2 lower a ++ [58] ++ hexPad2 lower b ++ [58] ++ hexPad2 lower c ++ [58] ++
      hexPad2 lower d ++ [58] ++ hexPad2 lower e ++ [58] ++ hexPad2 lower f
  | _ => []

/-- `Ipv4Addr::from(u32)` rendering: dotted-quad of the big-endian
octets. -/
def ipv4Bytes (v : Nat) : Buf :=
  natDec (v / 16777216 % 256) ++ [46] ++ natDec (v / 65536 % 256) ++ [46] ++
    natDec (v / 256 % 256) ++ [46] ++ natDec (v % 256)

/-- The 16-bit segments of a 16-byte buffer in network order, as
`Ipv6Addr::from([u8; 16])` groups them (big-endian pairs). -/
def segsOfBytesBE : Buf → List Nat
  | b0 :: b1 :: rest => (b0 * 256 + b1) :: segsOfBytesBE rest
  | _ => []

/-- The `Argument::ArrU16Len8` reassembly of `log_buf`
(src/aya-log/src/lib.rs:538): the 16-byte payload is decoded two bytes at
a time as little-endian 16-bit words (`((s[1] as u16) << 8) | s[0]`),
written explicitly rather than through a native-endian read. -/
def u16sOfBytesLE : Buf → List Nat
  | b0 :: b1 :: rest => (b0 + 256 * b1) :: u16sOfBytesLE rest
  | _ => []

/-- Hex segments joined with `:`. -/
def joinColon : List Nat → Buf
  | [] => []
  | [s] => hexLower s
  | s :: rest => hexLower s ++ [58] ++ joinColon rest

/-- The zero-run scan of the Rust `Ipv6Addr` `Display` implementation:
the first longest run of zero segments, as `(start, length)`.  The
state is `(index, currentStart, currentLen, bestStart, bestLen)` and the
best is replaced only by a strictly longer run. -/
def zeroSpanAux : List Nat → Nat → Nat → Nat → Nat → Nat → Nat × Nat
  | [], _, _, _, bs, bl => (bs, bl)
  | s :: rest, i, cs, cl, bs, bl =>
    if s = 0 then
      let cs1 := if cl = 0 then i else cs
      let cl1 := cl + 1
      if bl < cl1 then zeroSpanAux rest (i + 1) cs1 cl1 cs1 cl1
      else zeroSpanAux rest (i + 1) cs1 cl1 bs bl
    else zeroSpanAux rest (i + 1) 0 0 bs bl

/-- `Ipv6Addr` `Display` (Rust standard library, called by
`Ipv6Formatter`): the IPv4-mapped form is printed as `::ffff:a.b.c.d`;
otherwise the first longest run of at least two zero segments is
compressed to `::`, with segments in minimal lowercase hex. -/
def ipv6String (segs : List Nat) : Buf :=
  match segs with
  | [0, 0, 0, 0, 0, 65535, g, h] => ascii "::ffff:" ++ ipv4Bytes (g * 65536 + h)
  | _ =>
    let span := zeroSpanAux segs 0 0 0 0 0
    if 1 < span.2 then
      joinColon (segs.take span.1) ++ ascii "::" ++ joinColon (segs.drop (span.1 + span.2))
    else joinColon segs

/-- Stand-in for the Rust standard library's `Display` for `f32`/`f64`
(an external collaborator of this crate; shortest-roundtrip float
rendering is not modelled).  No claim depends on the rendered text of a
float, only on which hints reach the renderer at all. -/
def floatRender (value : Buf) : Buf := ascii "float:" ++ natDec (bytesToNat value)

/-- Stand-in for the Rust standard library's `Display` for `Utf8Error`,
interpolated into the fallback diagnostic.  No claim depends on its
text. -/
def utf8ErrRender (value : Buf) : Buf := ascii "invalid utf-8 of len " ++ natDec value.length

/-- `impl Format` for the scalar integer types other than `u32`
(the `impl_format!` macro, src/aya-log/src/lib.rs:318): `Default`,
`LowerHex` and `UpperHex` are supported, the address hints are not, and
no hint behaves as `Default`.  The three rendered forms are passed in by
the per-type wrappers. -/
def format_scalar_int (dec lhex uhex : Buf) (hint : Option DisplayHint) : Option Buf :=
  match hint with
  | some .default => some dec
  | some .lowerHex => some lhex
  | some .upperHex => some uhex
  | some .ipv4 => none
  | some .ipv6 => none
  | some .lowerMac => none
  | some .upperMac => none
  | none => some dec

/-- `impl Format for u32` (src/aya-log/src/lib.rs:258): as the other
scalars, plus `Ipv4`. -/
def format_u32 (v : Nat) (hint : Option DisplayHint) : Option Buf :=
  match hint with
  | some .default => some (natDec v)
  | some .lowerHex => some (hexLower v)
  | some .upperHex => some (hexUpper v)
  | some .ipv4 => some (ipv4Bytes v)
  | some .ipv6 => none
  | some .lowerMac => none
  | some .upperMac => none
  | none => some (natDec v)

/-- `impl Format` for `f32`/`f64` (the `impl_format_float!` macro,
src/aya-log/src/lib.rs:348): only `Default` (or no hint) is supported. -/
def format_float (dec : Buf) (hint : Option DisplayHint) : Option Buf :=
  match hint with
  | some .default => some dec
  | some .lowerHex => none
  | some .upperHex => none
  | some .ipv4 => none
  | some .ipv6 => none
  | some .lowerMac => none
  | some .upperMac => none
  | none => some dec

/-- `impl Format for &[u8]` (src/aya-log/src/lib.rs:248): only the two
hex hints are supported, rendering each byte without padding and with no
separators (`LowerHexDebugFormatter` / `UpperHexDebugFormatter`). -/
def format_bytes (v : Buf) (hint : Option DisplayHint) : Option Buf :=
  match hint with
  | some .lowerHex => some (v.flatMap hexLower)
  | some .upperHex => some (v.flatMap hexUpper)
  | _ => none

/-- `impl Format for [u8; 6]` (src/aya-log/src/lib.rs:273): only the two
MAC hints are supported. -/
def format_arr6 (v : Buf) (hint : Option DisplayHint) : Option Buf :=
  match hint with
  | some .default => none
  | some .lowerHex => none
  | some .upperHex => none
  | some .ipv4 => none
  | some .ipv6 => none
  | some .lowerMac => some (macBytes true v)
  | some .upperMac => some (macBytes false v)
  | none => none

/-- `impl Format for [u8; 16]` (src/aya-log/src/lib.rs:288): only `Ipv6`
is supported; the bytes are grouped big-endian by `Ipv6Addr::from`. -/
def format_arr16 (v : Buf) (hint : Option DisplayHint) : Option Buf :=
  match hint with
  | some .ipv6 => some (ipv6String (segsOfBytesBE v))
  | _ => none

/-- `impl Format for [u16; 8]` (src/aya-log/src/lib.rs:303): only `Ipv6`
is supported; the segments are used directly by `Ipv6Addr::from`. -/
def format_arr16x8 (segs : List Nat) (hint : Option DisplayHint) : Option Buf :=
  match hint with
  | some .ipv6 => some (ipv6String segs)
  | _ => none

/-- The common shape of the value-bearing argument arms of `log_buf`:
`value.try_into()` (fail `Err(())` unless the value has exactly the
type's width), then `format(last_hint.take())` (fail `Err(())` on an
unsupported hint, else append); the pending hint is left cleared. -/
def pushFormatted (msg : Buf) (w : Nat) (value : Buf) (fmt : Option Buf) :
    Res (Buf × Option DisplayHint × List SinkCall) :=
  if value.length = w then
    match fmt with
    | some s => .ok (msg ++ s, none, [])
    | none => .fail .err
  else .fail .err

/-- The argument-loop body of `log_buf` (src/aya-log/src/lib.rs:451): one
triple dispatched on its argument tag, given the accumulated message and
the pending hint.  On success it returns the new message, the new pending
hint and the fallback diagnostics emitted.  `rest` is the buffer following
the value slice: the `DisplayHint` arm reads one byte at `value.as_ptr()`
via `ptr::read_unaligned` without checking the value width, so with an
empty value it reads the byte that follows (or past the buffer: undefined
behaviour).  The `Str` arm never touches the pending hint. -/
def argStep (msg : Buf) (hint : Option DisplayHint) (tag : ArgTag) (value rest : Buf) :
    Res (Buf × Option DisplayHint × List SinkCall) :=
  match tag with
  | .displayHint =>
    match value ++ rest with
    | [] => .fail .ub
    | b :: _ =>
      match decodeHint b with
      | some dh => .ok (msg, some dh, [])
      | none => .fail .ub
  | .i8 =>
    pushFormatted msg 1 value
      (format_scalar_int (intDec (intFromBytes value)) (hexLower (bytesToNat value))
        (hexUpper (bytesToNat value)) hint)
  | .i16 =>
    pushFormatted msg 2 value
      (format_scalar_int (intDec (intFromBytes value)) (hexLower (bytesToNat value))
        (hexUpper (bytesToNat value)) hint)
  | .i32 =>
    pushFormatted msg 4 value
      (format_scalar_int (intDec (intFromBytes value)) (hexLower (bytesToNat value))
        (hexUpper (bytesToNat value)) hint)
  | .i64 =>
    pushFormatted msg 8 value
      (format_scalar_int (intDec (intFromBytes value)) (hexLower (bytesToNat value))
        (hexUpper (bytesToNat value)) hint)
  | .isize =>
    pushFormatted msg 8 value
      (format_scalar_int (intDec (intFromBytes value)) (hexLower (bytesToNat value))
        (hexUpper (bytesToNat value)) hint)
  | .u8 =>
    pushFormatted msg 1 value
      (format_scalar_int (natDec (bytesToNat value)) (hexLower (bytesToNat value))
        (hexUpper (bytesToNat value)) hint)
  | .u16 =>
    pushFormatted msg 2 value
      (format_scalar_int (natDec (bytesToNat value)) (hexLower (bytesToNat value))
        (hexUpper (bytesToNat value)) hint)
  | .u32 => pushFormatted msg 4 value (format_u32 (bytesToNat value) hint)
  | .u64 =>
    pushFormatted msg 8 value
      (format_scalar_int (natDec (bytesToNat value)) (hexLower (bytesToNat value))
        (hexUpper (bytesToNat value)) hint)
  | .usize =>
    pushFormatted msg 8 value
      (format_scalar_int (natDec (bytesToNat value)) (hexLower (bytesToNat value))
        (hexUpper (bytesToNat value)) hint)
  | .f32 => pushFormatted msg 4 value (format_float (floatRender value) hint)
  | .f64 => pushFormatted msg 8 value (format_float (floatRender value) hint)
  | .arrU8Len6 => pushFormatted msg 6 value (format_arr6 value hint)
  | .arrU8Len16 => pushFormatted msg 16 value (format_arr16 value hint)
  | .arrU16Len8 => pushFormatted msg 16 value (format_arr16x8 (u16sOfBytesLE value) hint)
  | .bytes =>
    match format_bytes value hint with
    | some s => .ok (msg ++ s, none, [])
    | none => .fail .err
  | .str =>
    if utf8Valid value then .ok (msg ++ value, hint, [])
    else .ok (msg, hint, [.fallback (ascii "received invalid utf8 string: " ++ utf8ErrRender value)])

/-- The `for _ in 0..num_args` argument loop of `log_buf`
(src/aya-log/src/lib.rs:448): consume `n` triples via `try_read`,
dispatching each with `argStep`, accumulating the message, the pending
hint and the emitted fallback diagnostics. -/
def argLoop : Nat → Buf → Option DisplayHint → Buf → List SinkCall × Res Buf
  | 0, msg, _, _ => ([], .ok msg)
  | n + 1, msg, hint, buf =>
    match try_read argTagSize decodeArgTag buf with
    | .fail f => ([], .fail f)
    | .ok (tag, value, rest) =>
      match argStep msg hint tag value rest with
      | .fail f => ([], .fail f)
      | .ok (msg1, hint1, calls) =>
        let res := argLoop n msg1 hint1 rest
        (calls ++ res.1, res.2)

/-- `log_buf` (src/aya-log/src/lib.rs:402): decode one record buffer.
Six header triples, then `num_args.ok_or(())?` argument triples, then the
record is built (failing if `target` or `level` is absent) and handed to
the sink's `log`, followed synchronously by `flush`.  The returned
`RunResult` carries the outcome and the ordered calls (fallback
diagnostics, then on success the single `log` and `flush`). -/
def log_buf (buf : Buf) : RunResult :=
  match headerLoop LOG_FIELDS initHeader buf with
  | .fail f => ⟨faultOutcome f, []⟩
  | .ok (h, rest) =>
    match h.num_args with
    | none => ⟨.err, []⟩
    | some n =>
      match argLoop n [] none rest with
      | (calls, .fail f) => ⟨faultOutcome f, calls⟩
      | (calls, .ok msg) =>
        match h.target, h.level with
        | some t, some l =>
          ⟨.ok, calls ++ [.log ⟨t, l, h.module, h.file, h.line, msg⟩, .flush]⟩
        | _, _ => ⟨.err, calls⟩

/-- Producer-side encoding of one wire triple with the shared widths:
tag bytes, length bytes, value bytes.  Used to build concrete and
symbolic test buffers against the same wire model the decoder reads. -/
def encTriple (tagSize : Nat) (tag : Nat) (v : Buf) : Buf :=
  natToBytes tagSize tag ++ natToBytes logValueLengthSize v.length ++ v

/-- An encoded header triple. -/
def encHeaderTriple (t : RecordFieldTag) (v : Buf) : Buf :=
  encTriple recordTagSize (recordFieldCode t) v

/-- An encoded argument triple. -/
def encArgTriple (t : ArgTag) (v : Buf) : Buf :=
  encTriple argTagSize (argCode t) v

/-- An encoded display-hint triple (one payload byte holding the hint
code). -/
def encHintTriple (dh : DisplayHint) : Buf :=
  encArgTriple .displayHint [hintCode dh]

/-- An encoded string argument triple. -/
def encStrTriple (b : Buf) : Buf := encArgTriple .str b

/-- Concatenation of encoded string argument triples. -/
def encStrArgs (args : List Buf) : Buf := (args.map encStrTriple).flatten

/-- Concatenation of byte buffers (the expected message of a pure string
record). -/
def flattenBufs (l : List Buf) : Buf := l.flatten

theorem natToBytes_length (k n : Nat) : (natToBytes k n).length = k := by
  induction k generalizing n with
  | zero => rfl
  | succ k ih => simp [natToBytes, ih]

theorem bytesToNat_natToBytes (k n : Nat) (h : n < 256 ^ k) :
    bytesToNat (natToBytes k n) = n := by
  induction k generalizing n with
  | zero =>
    have hn : n = 0 := by simpa using h
    subst hn; rfl
  | succ k ih =>
    have hdiv : n / 256 < 256 ^ k := by
      rw [Nat.div_lt_iff_lt_mul (by norm_num : 0 < 256)]
      calc n < 256 ^ (k + 1) := h
        _ = 256 ^ k * 256 := by ring
    simp [natToBytes, bytesToNat, ih _ hdiv]
    omega

/-- `try_read` over an encoded triple followed by anything: the declared
tag is decoded, the value is returned exactly and the following bytes are
the remainder. -/
theorem try_read_enc {T : Type} (tagSize : Nat) (decodeTag : Nat → Option T)
    (tag : Nat) (tg : T) (v rest : Buf) (htag : tag < 256 ^ tagSize)
    (hv : v.length < 65536) (hdec : decodeTag tag = some tg) :
    try_read tagSize decodeTag (encTriple tagSize tag v ++ rest) = .ok (tg, v, rest) := by
  have hlen1 : (natToBytes tagSize tag).length = tagSize := natToBytes_length _ _
  have hlen2 : (natToBytes logValueLengthSize v.length).length = logValueLengthSize :=
    natToBytes_length _ _
  have hassoc : encTriple tagSize tag v ++ rest =
      natToBytes tagSize tag ++
        (natToBytes logValueLengthSize v.length ++ (v ++ rest)) := by
    simp [encTriple]
  rw [hassoc]
  have htotal : (natToBytes tagSize tag ++
      (natToBytes logValueLengthSize v.length ++ (v ++ rest))).length =
      tagSize + (logValueLengthSize + (v.length + rest.length)) := by
    simp [hlen1, hlen2]
  unfold try_read
  rw [if_neg (by rw [htotal]; simp only [logValueLengthSize]; omega)]
  rw [List.take_left' hlen1, List.drop_left' hlen1]
  rw [bytesToNat_natToBytes _ _ htag, hdec]
  simp only
  rw [List.take_left' hlen2, List.drop_left' hlen2]
  rw [bytesToNat_natToBytes _ _ (by simpa [logValueLengthSize] using hv)]
  rw [if_neg (by simp)]
  rw [List.take_left' rfl, List.drop_left' rfl]

theorem recordFieldCode_lt (t : RecordFieldTag) : recordFieldCode t < 256 ^ recordTagSize := by
  cases t <;> simp [recordFieldCode, recordTagSize]

theorem decode_recordFieldCode (t : RecordFieldTag) :
    decodeRecordField (recordFieldCode t) = some t := by
  cases t <;> rfl

theorem argCode_lt (t : ArgTag) : argCode t < 256 ^ argTagSize := by
  cases t <;> simp [argCode, argTagSize]

theorem decode_argCode (t : ArgTag) : decodeArgTag (argCode t) = some t := by
  cases t <;> rfl

theorem decode_hintCode (dh : DisplayHint) : decodeHint (hintCode dh) = some dh := by
  cases dh <;> rfl

/-- `try_read` over an encoded header triple. -/
theorem try_read_encHeader (t : RecordFieldTag) (v rest : Buf) (hv : v.length < 65536) :
    try_read recordTagSize decodeRecordField (encHeaderTriple t v ++ rest) = .ok (t, v, rest) :=
  try_read_enc _ _ _ _ _ _ (recordFieldCode_lt t) hv (decode_recordFieldCode t)

/-- `try_read` over an encoded argument triple. -/
theorem try_read_encArg (t : ArgTag) (v rest : Buf) (hv : v.length < 65536) :
    try_read argTagSize decodeArgTag (encArgTriple t v ++ rest) = .ok (t, v, rest) :=
  try_read_enc _ _ _ _ _ _ (argCode_lt t) hv (decode_argCode t)

/-- Unfolding the header loop over one encoded triple whose step
succeeds. -/
theorem headerLoop_enc_ok (n : Nat) (h h1 : Header) (t : RecordFieldTag) (v rest : Buf)
    (hv : v.length < 65536) (hstep : headerStep h t v rest = .ok h1) :
    headerLoop (n + 1) h (encHeaderTriple t v ++ rest) = headerLoop n h1 rest := by
  simp only [headerLoop, try_read_encHeader t v rest hv, hstep]

/-- Unfolding the header loop over one encoded triple whose step fails. -/
theorem headerLoop_enc_fail (n : Nat) (h : Header) (f : Fault) (t : RecordFieldTag)
    (v rest : Buf) (hv : v.length < 65536) (hstep : headerStep h t v rest = .fail f) :
    headerLoop (n + 1) h (encHeaderTriple t v ++ rest) = .fail f := by
  simp only [headerLoop, try_read_encHeader t v rest hv, hstep]

/-- Unfolding the argument loop over one encoded triple whose step
succeeds. -/
theorem argLoop_enc_ok (n : Nat) (msg msg1 : Buf) (hint hint1 : Option DisplayHint)
    (calls : List SinkCall) (t : ArgTag) (v rest : Buf) (hv : v.length < 65536)
    (hstep : argStep msg hint t v rest = .ok (msg1, hint1, calls)) :
    argLoop (n + 1) msg hint (encArgTriple t v ++ rest) =
      (calls ++ (argLoop n msg1 hint1 rest).1, (argLoop n msg1 hint1 rest).2) := by
  simp only [argLoop, try_read_encArg t v rest hv, hstep]

/-- Unfolding the argument loop over one encoded triple whose step
fails. -/
theorem argLoop_enc_fail (n : Nat) (msg : Buf) (hint : Option DisplayHint) (f : Fault)
    (t : ArgTag) (v rest : Buf) (hv : v.length < 65536)
    (hstep : argStep msg hint t v rest = .fail f) :
    argLoop (n + 1) msg hint (encArgTriple t v ++ rest) = ([], .fail f) := by
  simp only [argLoop, try_read_encArg t v rest hv, hstep]

/-- Processing an encoded display-hint triple stores the decoded hint as
the pending hint (replacing any previous one), appends nothing and emits
nothing. -/
theorem argLoop_hint (n : Nat) (msg : Buf) (hint : Option DisplayHint) (dh : DisplayHint)
    (rest : Buf) :
    argLoop (n + 1) msg hint (encHintTriple dh ++ rest) = argLoop n msg (some dh) rest := by
  have hstep : argStep msg hint .displayHint [hintCode dh] rest = .ok (msg, some dh, []) := by
    cases dh <;> rfl
  rw [encHintTriple, argLoop_enc_ok n msg msg hint (some dh) [] .displayHint [hintCode dh] rest
    (by simp) hstep]
  simp

/-- One argument-loop step whose `try_read` fails. -/
theorem argLoop_step_readfail (n : Nat) (msg : Buf) (hint : Option DisplayHint) (buf : Buf)
    (f : Fault) (htr : try_read argTagSize decodeArgTag buf = .fail f) :
    argLoop (n + 1) msg hint buf = ([], .fail f) := by
  simp only [argLoop, htr]

/-- One argument-loop step whose `argStep` fails. -/
theorem argLoop_step_fail (n : Nat) (msg : Buf) (hint : Option DisplayHint) (buf : Buf)
    (tag : ArgTag) (value rest : Buf) (f : Fault)
    (htr : try_read argTagSize decodeArgTag buf = .ok (tag, value, rest))
    (hst : argStep msg hint tag value rest = .fail f) :
    argLoop (n + 1) msg hint buf = ([], .fail f) := by
  simp only [argLoop, htr, hst]

/-- One successful argument-loop step. -/
theorem argLoop_step_ok (n : Nat) (msg : Buf) (hint : Option DisplayHint) (buf : Buf)
    (tag : ArgTag) (value rest msg1 : Buf) (hint1 : Option DisplayHint)
    (calls : List SinkCall)
    (htr : try_read argTagSize decodeArgTag buf = .ok (tag, value, rest))
    (hst : argStep msg hint tag value rest = .ok (msg1, hint1, calls)) :
    argLoop (n + 1) msg hint buf =
      (calls ++ (argLoop n msg1 hint1 rest).1, (argLoop n msg1 hint1 rest).2) := by
  simp only [argLoop, htr, hst]

/-- One header-loop step whose `headerStep` succeeds. -/
theorem headerLoop_step_ok (n : Nat) (h h1 : Header) (buf : Buf) (tag : RecordFieldTag)
    (value rest : Buf)
    (htr : try_read recordTagSize decodeRecordField buf = .ok (tag, value, rest))
    (hst : headerStep h tag value rest = .ok h1) :
    headerLoop (n + 1) h buf = headerLoop n h1 rest := by
  simp only [headerLoop, htr, hst]

/-- One header-loop step whose `headerStep` fails. -/
theorem headerLoop_step_fail (n : Nat) (h : Header) (buf : Buf) (tag : RecordFieldTag)
    (value rest : Buf) (f : Fault)
    (htr : try_read recordTagSize decodeRecordField buf = .ok (tag, value, rest))
    (hst : headerStep h tag value rest = .fail f) :
    headerLoop (n + 1) h buf = .fail f := by
  simp only [headerLoop, htr, hst]

/-- Every call emitted by a single successful argument step is a fallback
diagnostic (the sink's `log`/`flush` are only reached after the whole
loop). -/
theorem argStep_calls (msg : Buf) (hint : Option DisplayHint) (tag : ArgTag) (value rest : Buf)
    (msg1 : Buf) (hint1 : Option DisplayHint) (calls : List SinkCall)
    (hstep : argStep msg hint tag value rest = .ok (msg1, hint1, calls)) :
    ∀ c ∈ calls, ∃ m, c = .fallback m := by
  intro c hc
  cases tag <;> simp only [argStep, pushFormatted] at hstep <;> repeat' split at hstep
  all_goals try simp_all
  all_goals
    obtain ⟨h1, h2, h3⟩ := hstep
    rw [← h3] at hc
    simp at hc
    exact ⟨_, hc⟩

/-- Every call emitted by the argument loop is a fallback diagnostic. -/
theorem argLoop_calls (n : Nat) : ∀ (msg : Buf) (hint : Option DisplayHint) (buf : Buf),
    ∀ c ∈ (argLoop n msg hint buf).1, ∃ m, c = .fallback m := by
  induction n with
  | zero => intro msg hint buf c hc; simp [argLoop] at hc
  | succ n ih =>
    intro msg hint buf c hc
    rcases htr : try_read argTagSize decodeArgTag buf with ⟨tag, value, rest⟩ | f
    · rcases hst : argStep msg hint tag value rest with ⟨msg1, hint1, calls⟩ | f
      · rw [argLoop_step_ok n msg hint buf tag value rest msg1 hint1 calls htr hst] at hc
        simp only [List.mem_append] at hc
        rcases hc with hc | hc
        · exact argStep_calls msg hint tag value rest msg1 hint1 calls hst c hc
        · exact ih msg1 hint1 rest c hc
      · rw [argLoop_step_fail n msg hint buf tag value rest f htr hst] at hc; simp at hc
    · rw [argLoop_step_readfail n msg hint buf f htr] at hc; simp at hc

/-- A failing `try_read` fails the whole header loop. -/
theorem headerLoop_fail (n : Nat) (h : Header) (buf : Buf) (f : Fault)
    (htr : try_read recordTagSize decodeRecordField buf = .fail f) :
    headerLoop (n + 1) h buf = .fail f := by
  simp [headerLoop, htr]

/-- A total tag decoder: models `try_read` at a genuine plain-old-data
tag type, where every bit pattern is a valid tag. -/
def podTag (n : Nat) : Option Nat := some n

/-- Consume `n` wire triples from the front of a buffer (tag
uninterpreted), returning the remainder; `none` if the bytes do not
contain `n` well-formed triples. -/
def stripTriples : Nat → Buf → Option Buf
  | 0, buf => some buf
  | n + 1, buf =>
    match try_read recordTagSize podTag buf with
    | .fail _ => none
    | .ok (_, _, rest) => stripTriples n rest

/-- The value reader written without local abbreviations, for case
analysis. -/
theorem try_read_eq {T : Type} (tagSize : Nat) (decodeTag : Nat → Option T) (buf : Buf) :
    try_read tagSize decodeTag buf =
      if buf.length < tagSize + logValueLengthSize then .fail .err
      else
        match decodeTag (bytesToNat (buf.take tagSize)) with
        | none => .fail .ub
        | some tag =>
          if ((buf.drop tagSize).drop logValueLengthSize).length <
              bytesToNat ((buf.drop tagSize).take logValueLengthSize) then .fail .err
          else
            .ok (tag,
              ((buf.drop tagSize).drop logValueLengthSize).take
                (bytesToNat ((buf.drop tagSize).take logValueLengthSize)),
              ((buf.drop tagSize).drop logValueLengthSize).drop
                (bytesToNat ((buf.drop tagSize).take logValueLengthSize))) := rfl

/-- A successful `try_read` at any tag type succeeds identically at the
uninterpreted tag type. -/
theorem try_read_pod {T : Type} (dec : Nat → Option T) (buf : Buf) (t : T) (v r : Buf)
    (hok : try_read recordTagSize dec buf = .ok (t, v, r)) :
    try_read recordTagSize podTag buf = .ok (bytesToNat (buf.take recordTagSize), v, r) := by
  rw [try_read_eq] at hok
  rw [try_read_eq]
  by_cases hg1 : buf.length < recordTagSize + logValueLengthSize
  · rw [if_pos hg1] at hok; exact absurd hok (by simp)
  · rw [if_neg hg1] at hok
    cases hdec : dec (bytesToNat (buf.take recordTagSize)) with
    | none => simp only [hdec] at hok; exact absurd hok (by simp)
    | some tg =>
      simp only [hdec] at hok
      by_cases hg2 : ((buf.drop recordTagSize).drop logValueLengthSize).length <
          bytesToNat ((buf.drop recordTagSize).take logValueLengthSize)
      · rw [if_pos hg2] at hok; exact absurd hok (by simp)
      · rw [if_neg hg2] at hok
        simp only [Res.ok.injEq, Prod.mk.injEq] at hok
        obtain ⟨-, hv, hr⟩ := hok
        subst hv
        subst hr
        simp only [podTag, if_neg hg1]
        rw [if_neg hg2]

/-- The header loop consumes exactly `n` wire triples. -/
theorem headerLoop_strip (n : Nat) : ∀ (h hh : Header) (buf rest : Buf),
    headerLoop n h buf = .ok (hh, rest) → stripTriples n buf = some rest := by
  induction n with
  | zero => intro h hh buf rest hok; simp [headerLoop] at hok; simp [stripTriples, hok.2]
  | succ n ih =>
    intro h hh buf rest hok
    rcases htr : try_read recordTagSize decodeRecordField buf with ⟨tag, value, r⟩ | f
    · rcases hst : headerStep h tag value r with h1 | f
      · rw [headerLoop_step_ok n h h1 buf tag value r htr hst] at hok
        simp only [stripTriples, try_read_pod decodeRecordField buf tag value r htr]
        exact ih h1 hh r rest hok
      · rw [headerLoop_step_fail n h buf tag value r f htr hst] at hok
        exact absurd hok (by simp)
    · rw [headerLoop_fail n h buf f htr] at hok
      exact absurd hok (by simp)


/-- Processing the encoded string arguments of a pure-string record:
each fragment's bytes are appended verbatim, in order, and nothing else
is emitted. -/
theorem argLoop_strArgs (args : List Buf) : ∀ (msg : Buf) (hint : Option DisplayHint),
    (∀ b ∈ args, utf8Valid b = true ∧ b.length < 65536) →
    argLoop args.length msg hint (encStrArgs args) = ([], .ok (msg ++ flattenBufs args)) := by
  induction args with
  | nil => intro msg hint _; simp [encStrArgs, flattenBufs, argLoop]
  | cons b bs ih =>
    intro msg hint hargs
    have hb := hargs b (by simp)
    have hbs : ∀ x ∈ bs, utf8Valid x = true ∧ x.length < 65536 := fun x hx =>
      hargs x (by simp [hx])
    have hstep : argStep msg hint .str b (encStrArgs bs) = .ok (msg ++ b, hint, []) := by
      simp [argStep, hb.1]
    have hsplit : encStrArgs (b :: bs) = encArgTriple .str b ++ encStrArgs bs := by
      simp [encStrArgs, encStrTriple]
    rw [show (b :: bs).length = bs.length + 1 from rfl, hsplit,
      argLoop_enc_ok bs.length msg (msg ++ b) hint hint [] .str b (encStrArgs bs) hb.2 hstep,
      ih (msg ++ b) hint hbs]
    simp [flattenBufs]

/-- The (type, hint) cells marked Unsupported in the spec's formatter
table (§4.4), including the no-hint column: transcribed from the spec's
words, not from the code, so that the code can be checked against the
table.  `DisplayHint` and `Str` triples have no table row (hints are
stored, strings are appended verbatim). -/
def specUnsupported (t : ArgTag) (hint : Option DisplayHint) : Bool :=
  match t with
  | .displayHint => false
  | .str => false
  | .u32 =>
    match hint with
    | some .ipv6 => true
    | some .lowerMac => true
    | some .upperMac => true
    | _ => false
  | .i8 | .i16 | .i32 | .i64 | .isize | .u8 | .u16 | .u64 | .usize =>
    match hint with
    | some .ipv4 => true
    | some .ipv6 => true
    | some .lowerMac => true
    | some .upperMac => true
    | _ => false
  | .f32 | .f64 =>
    match hint with
    | some .ipv4 => true
    | some .ipv6 => true
    | some .lowerMac => true
    | some .upperMac => true
    | _ => false
  | .bytes =>
    match hint with
    | some .lowerHex => false
    | some .upperHex => false
    | _ => true
  | .arrU8Len6 =>
    match hint with
    | some .lowerMac => false
    | some .upperMac => false
    | _ => true
  | .arrU8Len16 | .arrU16Len8 =>
    match hint with
    | some .ipv6 => false
    | _ => true

/-- Whether a value buffer has the exact byte width the argument type's
`try_into` demands (`Bytes` and `Str` take any width; a hint triple's
width is not checked). -/
def argWidthOk (t : ArgTag) (v : Buf) : Bool :=
  match t with
  | .i8 | .u8 => decide (v.length = 1)
  | .i16 | .u16 => decide (v.length = 2)
  | .i32 | .u32 | .f32 => decide (v.length = 4)
  | .i64 | .isize | .u64 | .usize | .f64 => decide (v.length = 8)
  | .arrU8Len6 => decide (v.length = 6)
  | .arrU8Len16 | .arrU16Len8 => decide (v.length = 16)
  | .displayHint | .bytes | .str => true

/-- Every cell the spec's table marks Unsupported makes the argument step
fail with `Err(())` on a value of the right width. -/
theorem argStep_unsupported (msg : Buf) (hint : Option DisplayHint) (t : ArgTag) (v rest : Buf)
    (hu : specUnsupported t hint = true) (hw : argWidthOk t v = true) :
    argStep msg hint t v rest = .fail .err := by
  rcases hint with _ | dh
  · cases t <;>
      simp_all [specUnsupported, argWidthOk, argStep, pushFormatted, format_scalar_int,
        format_u32, format_float, format_bytes, format_arr6, format_arr16, format_arr16x8]
  · cases t <;> cases dh <;>
      simp_all [specUnsupported, argWidthOk, argStep, pushFormatted, format_scalar_int,
        format_u32, format_float, format_bytes, format_arr6, format_arr16, format_arr16x8]

/-- The well-formed header of the test records
(`write_record_header(buf, "test", Info, "test", "test.rs", 123, n)`). -/
def hdrArgs (n : Nat) : Buf :=
  encHeaderTriple .target (ascii "test") ++
    encHeaderTriple .level [3] ++
    encHeaderTriple .module (ascii "test") ++
    encHeaderTriple .file (ascii "test.rs") ++
    encHeaderTriple .line (natToBytes 4 123) ++
    encHeaderTriple .numArgs (natToBytes 8 n)

/-- The header state decoded from `hdrArgs n`. -/
def hdrState (n : Nat) : Header :=
  ⟨some (ascii "test"), some .info, some (ascii "test"), some (ascii "test.rs"),
    some 123, some n⟩

/-- A record whose Level triple carries the out-of-range ordinal 6. -/
def levelSixBuf : Buf :=
  encHeaderTriple .target (ascii "t") ++
    encHeaderTriple .level [6] ++
    encHeaderTriple .module (ascii "m") ++
    encHeaderTriple .file (ascii "f") ++
    encHeaderTriple .line (natToBytes 4 1) ++
    encHeaderTriple .numArgs (natToBytes 8 0)

/-- A header with the Module tag encoded twice, the File tag never, and a
two-byte Level value (first byte 3 = Info, second byte junk). -/
def dupModuleBuf : Buf :=
  encHeaderTriple .target (ascii "t") ++
    encHeaderTriple .level [3, 99] ++
    encHeaderTriple .module (ascii "m1") ++
    encHeaderTriple .module (ascii "m2") ++
    encHeaderTriple .line (natToBytes 4 1) ++
    encHeaderTriple .numArgs (natToBytes 8 0)

/-- A record with a pending LowerHex hint, then a Str argument, then a U8
argument. -/
def hintThenStrBuf : Buf :=
  hdrArgs 3 ++ encHintTriple .lowerHex ++ encStrTriple (ascii "a") ++ encArgTriple .u8 [200]

/-- The Scenario E bytes of the spec (2001:db8::1:1 in network order). -/
def ipv6TestBytes : Buf :=
  [0x20, 0x01, 0x0d, 0xb8, 0, 0, 0, 0, 0, 0, 0, 0, 0, 0x01, 0, 0x01]

/-- Ipv6 hint plus the Scenario E bytes as the 16-byte byte-array
argument. -/
def ipv6ByteArrBuf : Buf :=
  hdrArgs 2 ++ encHintTriple .ipv6 ++ encArgTriple .arrU8Len16 ipv6TestBytes

/-- Ipv6 hint plus the Scenario E bytes as the 8×16-bit-group argument
(the little-endian group decoding applies to these payload bytes). -/
def ipv6U16WrongBuf : Buf :=
  hdrArgs 2 ++ encHintTriple .ipv6 ++ encArgTriple .arrU16Len8 ipv6TestBytes

/-- Ipv6 hint plus the 8×16-bit-group argument whose payload carries the
groups of 2001:db8::1:1 in little-endian byte order. -/
def ipv6U16Buf : Buf :=
  hdrArgs 2 ++ encHintTriple .ipv6 ++
    encArgTriple .arrU16Len8 [0x01, 0x20, 0xb8, 0x0d, 0, 0, 0, 0, 0, 0, 0, 0, 0x01, 0, 0x01, 0]

/-- Scenario B: two Str arguments. -/
def twoStrBuf : Buf := hdrArgs 2 ++ encStrArgs [ascii "hello ", ascii "test"]

/-- An unsupported-pair record: Default hint followed by a 6-byte array
argument, nothing else malformed. -/
def unsupportedPairBuf : Buf :=
  hdrArgs 2 ++ encHintTriple .default ++ encArgTriple .arrU8Len6 [0, 0, 0, 0, 0, 0]

/-- A record with one invalid-UTF-8 Str argument. -/
def badStrBuf : Buf := hdrArgs 1 ++ encStrTriple [255]

/-- C6: the claim asks that an out-of-range Level ordinal (or corrupt
Level payload) be rejected with a decode failure and no panic.  The code
instead reinterprets the byte as the `Level` enum through an unchecked
`ptr::read_unaligned` (src/aya-log/src/lib.rs:419): an out-of-range
ordinal is undefined behaviour, modelled as the distinguished `ub`
outcome, not the `Err(())` rejection the claim requires.  Evaluating the
decoder at a record whose Level byte is 6 reaches that unchecked
reinterpretation. -/
theorem level_out_of_range_is_ub :
    log_buf levelSixBuf = ⟨.ub, []⟩ ∧ Outcome.ub ≠ Outcome.err := by
  constructor
  · decide
  · decide

/-- C10: for every buffer whose header decodes successfully with Target
and Level present and NumArgs equal to zero, decoding succeeds and emits
exactly one event, whose message is empty (the argument loop runs zero
times and the accumulated message is never extended). -/
theorem zero_args_empty_message (buf : Buf) (h : Header) (rest t : Buf) (l : LogLevel)
    (hh : headerLoop LOG_FIELDS initHeader buf = .ok (h, rest))
    (hn : h.num_args = some 0) (ht : h.target = some t) (hl : h.level = some l) :
    log_buf buf = ⟨.ok, [.log ⟨t, l, h.module, h.file, h.line, []⟩, .flush]⟩ := by
  simp [log_buf, hh, hn, ht, hl, argLoop]

/-- C10 witness: the concrete zero-argument record. -/
theorem zero_args_empty_message_witness :
    log_buf (hdrArgs 0) =
      ⟨.ok, [.log ⟨ascii "test", .info, (hdrState 0).module, (hdrState 0).file,
        (hdrState 0).line, []⟩, .flush]⟩ :=
  zero_args_empty_message (hdrArgs 0) (hdrState 0) [] (ascii "test") .info (by decide)
    rfl rfl rfl

/-- C9: for every valid buffer encoding string arguments with no hint,
decoding reproduces each string's bytes verbatim in the output message,
and the message is the in-order concatenation of the arguments'
fragments (messages are modelled by their UTF-8 bytes, so
`flattenBufs args` is literally the fragments' bytes in order). -/
theorem str_args_verbatim (buf : Buf) (h : Header) (args : List Buf) (t : Buf) (l : LogLevel)
    (hh : headerLoop LOG_FIELDS initHeader buf = .ok (h, encStrArgs args))
    (hn : h.num_args = some args.length) (ht : h.target = some t) (hl : h.level = some l)
    (hargs : ∀ b ∈ args, utf8Valid b = true ∧ b.length < 65536) :
    log_buf buf =
      ⟨.ok, [.log ⟨t, l, h.module, h.file, h.line, flattenBufs args⟩, .flush]⟩ := by
  have hloop := argLoop_strArgs args [] none hargs
  simp only [List.nil_append] at hloop
  simp [log_buf, hh, hn, ht, hl, hloop]

set_option maxRecDepth 4000 in
/-- C9 witness: Scenario B, the Str arguments "hello " and "test" give
the message "hello test". -/
theorem str_args_verbatim_witness :
    log_buf twoStrBuf =
      ⟨.ok, [.log ⟨ascii "test", .info, (hdrState 2).module, (hdrState 2).file,
        (hdrState 2).line, flattenBufs [ascii "hello ", ascii "test"]⟩, .flush]⟩ ∧
    flattenBufs [ascii "hello ", ascii "test"] = ascii "hello test" := by
  constructor
  · exact str_args_verbatim twoStrBuf (hdrState 2) [ascii "hello ", ascii "test"]
      (ascii "test") .info (by decide) (by decide) rfl rfl (by decide)
  · decide

/-- C8: for every buffer that decodes successfully, the engine invokes
the sink's `log` exactly once with the assembled event, then the sink's
`flush`, synchronously in that order, as the final two calls before
returning success; every earlier call is an out-of-band fallback
diagnostic.  On decode failure (`Err` outcome) neither `log` nor `flush`
is called: every call made is a fallback diagnostic, so no partial event
is ever emitted. -/
theorem sink_log_then_flush (buf : Buf) :
    ((log_buf buf).outcome = .ok →
      ∃ diags ev, (log_buf buf).calls = diags ++ [.log ev, .flush] ∧
        ∀ c ∈ diags, ∃ m, c = .fallback m) ∧
    ((log_buf buf).outcome = .err →
      ∀ c ∈ (log_buf buf).calls, ∃ m, c = .fallback m) := by
  rcases hh : headerLoop LOG_FIELDS initHeader buf with ⟨h, rest⟩ | f
  · rcases hn : h.num_args with _ | n
    · have heq : log_buf buf = ⟨.err, []⟩ := by simp only [log_buf, hh, hn]
      rw [heq]
      exact ⟨fun hcontra => absurd hcontra (by simp), fun _ c hc => absurd hc (by simp)⟩
    · rcases hal : argLoop n [] none rest with ⟨calls, r⟩
      have hcf : ∀ c ∈ calls, ∃ m, c = .fallback m := by
        have h0 := argLoop_calls n [] none rest
        rw [hal] at h0
        exact h0
      rcases r with msg | f
      · rcases ht : h.target with _ | t
        · have heq : log_buf buf = ⟨.err, calls⟩ := by
            simp only [log_buf, hh, hn, hal, ht]
          rw [heq]
          exact ⟨fun hcontra => absurd hcontra (by simp), fun _ => hcf⟩
        · rcases hl : h.level with _ | l
          · have heq : log_buf buf = ⟨.err, calls⟩ := by
              simp only [log_buf, hh, hn, hal, ht, hl]
            rw [heq]
            exact ⟨fun hcontra => absurd hcontra (by simp), fun _ => hcf⟩
          · have heq : log_buf buf =
                ⟨.ok, calls ++ [.log ⟨t, l, h.module, h.file, h.line, msg⟩, .flush]⟩ := by
              simp only [log_buf, hh, hn, hal, ht, hl]
            rw [heq]
            exact ⟨fun _ => ⟨calls, ⟨t, l, h.module, h.file, h.line, msg⟩, rfl, hcf⟩,
              fun hcontra => absurd hcontra (by simp)⟩
      · have heq : log_buf buf = ⟨faultOutcome f, calls⟩ := by
          simp only [log_buf, hh, hn, hal]
        rw [heq]
        rcases f with _ | _
        · exact ⟨fun hcontra => absurd hcontra (by simp [faultOutcome]), fun _ => hcf⟩
        · exact ⟨fun hcontra => absurd hcontra (by simp [faultOutcome]),
            fun _ => hcf⟩
  · have heq : log_buf buf = ⟨faultOutcome f, []⟩ := by simp only [log_buf, hh]
    rw [heq]
    rcases f with _ | _ <;>
      exact ⟨fun hcontra => absurd hcontra (by simp [faultOutcome]),
        fun _ c hc => absurd hc (by simp)⟩

/-- C8 witness: a record with one invalid-UTF-8 Str argument decodes
successfully, with the fallback diagnostic first and the `log`/`flush`
pair last. -/
theorem sink_log_then_flush_witness :
    (log_buf badStrBuf).outcome = .ok ∧
    (∃ diags ev, (log_buf badStrBuf).calls = diags ++ [.log ev, .flush] ∧
      ∀ c ∈ diags, ∃ m, c = .fallback m) :=
  ⟨by decide, (sink_log_then_flush badStrBuf).1 (by decide)⟩

/-- C4: for every byte slice (at a plain-old-data tag type, where every
bit pattern is a valid tag), `try_read` fails with buffer-too-short
exactly when fewer bytes remain than the tag width plus the length-field
width, or fewer than the declared value length after those; on success it
returns the tag, a value slice of exactly the declared length, and the
remaining slice.  A buffer shorter than one fixed-width tag makes
`log_buf` return the buffer-too-short failure with no calls: no panic and
no partial event. -/
theorem value_reader_contract :
    (∀ (tagSize : Nat) (buf : Buf),
      (try_read tagSize podTag buf = .fail .err ↔
        buf.length < tagSize + logValueLengthSize ∨
          ((buf.drop tagSize).drop logValueLengthSize).length <
            bytesToNat ((buf.drop tagSize).take logValueLengthSize)) ∧
      (∀ (t : Nat) (v r : Buf), try_read tagSize podTag buf = .ok (t, v, r) →
        t = bytesToNat (buf.take tagSize) ∧
        v.length = bytesToNat ((buf.drop tagSize).take logValueLengthSize) ∧
        v ++ r = (buf.drop tagSize).drop logValueLengthSize)) ∧
    (∀ buf : Buf, buf.length < recordTagSize → log_buf buf = ⟨.err, []⟩) := by
  constructor
  · intro tagSize buf
    constructor
    · rw [try_read_eq]
      by_cases hg1 : buf.length < tagSize + logValueLengthSize
      · rw [if_pos hg1]
        simp [hg1]
      · rw [if_neg hg1]
        simp only [podTag]
        by_cases hg2 : ((buf.drop tagSize).drop logValueLengthSize).length <
            bytesToNat ((buf.drop tagSize).take logValueLengthSize)
        · rw [if_pos hg2]
          simp only [List.length_drop] at hg2
          simp [hg1]
          omega
        · rw [if_neg hg2]
          simp only [List.length_drop] at hg2
          simp [hg1]
          omega
    · intro t v r hok
      rw [try_read_eq] at hok
      by_cases hg1 : buf.length < tagSize + logValueLengthSize
      · rw [if_pos hg1] at hok; exact absurd hok (by simp)
      · rw [if_neg hg1] at hok
        simp only [podTag] at hok
        by_cases hg2 : ((buf.drop tagSize).drop logValueLengthSize).length <
            bytesToNat ((buf.drop tagSize).take logValueLengthSize)
        · rw [if_pos hg2] at hok; exact absurd hok (by simp)
        · rw [if_neg hg2] at hok
          simp only [Res.ok.injEq, Prod.mk.injEq] at hok
          obtain ⟨hto, hv, hr⟩ := hok
          subst hto
          subst hv
          subst hr
          refine ⟨rfl, ?_, List.take_append_drop _ _⟩
          simp only [List.length_take]
          omega
  · intro buf hshort
    have h6 : LOG_FIELDS = 5 + 1 := rfl
    have htr : try_read recordTagSize decodeRecordField buf = .fail .err := by
      rw [try_read_eq, if_pos (by simp only [logValueLengthSize]; omega)]
    rw [log_buf, h6, headerLoop_fail 5 initHeader buf .err htr]
    rfl

/-- C4 witness: a one-byte buffer is shorter than one fixed-width tag;
`try_read` reports buffer-too-short and `log_buf` emits nothing. -/
theorem value_reader_contract_witness :
    try_read 8 podTag [0] = .fail .err ∧ log_buf [0] = ⟨.err, []⟩ :=
  ⟨(value_reader_contract.1 8 [0]).1.mpr (Or.inl (by decide)),
    value_reader_contract.2 [0] (by decide)⟩

/-- C5: malformed UTF-8 is handled asymmetrically.  An invalid-UTF-8
Str argument is reported through the fallback diagnostic path and the
loop continues with the message, hint and remaining arguments untouched
(so the record still succeeds whenever the rest does); an invalid-UTF-8
Target, Module or File header triple fails the whole record's decode,
with no sink calls. -/
theorem utf8_arg_lenient_header_fatal :
    (∀ (n : Nat) (msg : Buf) (hint : Option DisplayHint) (v rest : Buf),
      utf8Valid v = false → v.length < 65536 →
      argLoop (n + 1) msg hint (encStrTriple v ++ rest) =
        (.fallback (ascii "received invalid utf8 string: " ++ utf8ErrRender v) ::
            (argLoop n msg hint rest).1,
          (argLoop n msg hint rest).2)) ∧
    (∀ (n : Nat) (h : Header) (t : RecordFieldTag) (v rest : Buf),
      (t = .target ∨ t = .module ∨ t = .file) → utf8Valid v = false → v.length < 65536 →
      headerLoop (n + 1) h (encHeaderTriple t v ++ rest) = .fail .err) ∧
    (∀ buf : Buf, headerLoop LOG_FIELDS initHeader buf = .fail .err →
      log_buf buf = ⟨.err, []⟩) := by
  refine ⟨?_, ?_, ?_⟩
  · intro n msg hint v rest hbad hlen
    have hstep : argStep msg hint .str v rest =
        .ok (msg, hint, [.fallback (ascii "received invalid utf8 string: " ++ utf8ErrRender v)]) := by
      simp [argStep, hbad]
    rw [encStrTriple, argLoop_enc_ok n msg msg hint hint
      [.fallback (ascii "received invalid utf8 string: " ++ utf8ErrRender v)] .str v rest
      hlen hstep]
    rfl
  · intro n h t v rest hfield hbad hlen
    have hstep : headerStep h t v rest = .fail .err := by
      rcases hfield with hf | hf | hf <;> subst hf <;> simp [headerStep, hbad]
    exact headerLoop_enc_fail n h .err t v rest hlen hstep
  · intro buf hfail
    rw [log_buf, hfail]
    rfl

/-- C5 witness: the invalid byte 0xFF as a Str argument only prepends a
fallback diagnostic, while 0xFF as the Target header value fails the
record. -/
theorem utf8_arg_lenient_header_fatal_witness :
    argLoop 2 [] none (encStrTriple [255] ++ encStrTriple (ascii "ok")) =
      (.fallback (ascii "received invalid utf8 string: " ++ utf8ErrRender [255]) ::
          (argLoop 1 [] none (encStrTriple (ascii "ok"))).1,
        (argLoop 1 [] none (encStrTriple (ascii "ok"))).2) ∧
    headerLoop 1 initHeader (encHeaderTriple .target [255] ++ []) = .fail .err :=
  ⟨utf8_arg_lenient_header_fatal.1 1 [] none [255] (encStrTriple (ascii "ok"))
      (by decide) (by decide),
    utf8_arg_lenient_header_fatal.2.1 0 initHeader .target [255] [] (Or.inl rfl)
      (by decide) (by decide)⟩

/-- C3: absence of a hint formats scalar integer and float values the
same as the `Default` hint, while for the raw-bytes slice, the 6-byte MAC
array and the 16-byte / 8×16-bit IPv6 array types absence of a hint is
Unsupported; and every (type, hint) pair marked Unsupported in the spec's
formatter table (`specUnsupported`, including the no-hint column) makes
the decode of a whole record containing exactly that pair — and nothing
else malformed — fail, with no sink calls. -/
theorem formatter_table_contract :
    (∀ d l u : Buf, format_scalar_int d l u none = format_scalar_int d l u (some .default)) ∧
    (∀ v : Nat, format_u32 v none = format_u32 v (some .default)) ∧
    (∀ d : Buf, format_float d none = format_float d (some .default)) ∧
    (∀ v : Buf, format_bytes v none = none ∧ format_arr6 v none = none ∧
      format_arr16 v none = none) ∧
    (∀ s : List Nat, format_arr16x8 s none = none) ∧
    (∀ (buf : Buf) (h : Header) (t : ArgTag) (dh : DisplayHint) (v : Buf),
      headerLoop LOG_FIELDS initHeader buf = .ok (h, encHintTriple dh ++ encArgTriple t v) →
      h.num_args = some 2 → specUnsupported t (some dh) = true → argWidthOk t v = true →
      v.length < 65536 → log_buf buf = ⟨.err, []⟩) ∧
    (∀ (buf : Buf) (h : Header) (t : ArgTag) (v : Buf),
      headerLoop LOG_FIELDS initHeader buf = .ok (h, encArgTriple t v) →
      h.num_args = some 1 → specUnsupported t none = true → argWidthOk t v = true →
      v.length < 65536 → log_buf buf = ⟨.err, []⟩) := by
  refine ⟨fun d l u => rfl, fun v => rfl, fun d => rfl,
    fun v => ⟨rfl, rfl, rfl⟩, fun s => rfl, ?_, ?_⟩
  · intro buf h t dh v hh hn hu hw hlen
    have hloop : argLoop 2 [] none (encHintTriple dh ++ encArgTriple t v) =
        ([], .fail .err) := by
      rw [show (2 : Nat) = 1 + 1 from rfl, argLoop_hint 1 [] none dh (encArgTriple t v),
        show (1 : Nat) = 0 + 1 from rfl,
        show encArgTriple t v = encArgTriple t v ++ [] from (List.append_nil _).symm,
        argLoop_enc_fail 0 [] (some dh) .err t v [] hlen
          (argStep_unsupported [] (some dh) t v [] hu hw)]
    simp only [log_buf, hh, hn, hloop]
    rfl
  · intro buf h t v hh hn hu hw hlen
    have hloop : argLoop 1 [] none (encArgTriple t v) = ([], .fail .err) := by
      rw [show (1 : Nat) = 0 + 1 from rfl,
        show encArgTriple t v = encArgTriple t v ++ [] from (List.append_nil _).symm,
        argLoop_enc_fail 0 [] none .err t v [] hlen
          (argStep_unsupported [] none t v [] hu hw)]
    simp only [log_buf, hh, hn, hloop]
    rfl

set_option maxRecDepth 4000 in
/-- C3 witness: the concrete unsupported pair (6-byte array, Default
hint) in an otherwise well-formed record fails the whole decode. -/
theorem formatter_table_contract_witness :
    log_buf unsupportedPairBuf = ⟨.err, []⟩ :=
  formatter_table_contract.2.2.2.2.2.1 unsupportedPairBuf (hdrState 2) .arrU8Len6 .default
    [0, 0, 0, 0, 0, 0] (by decide) rfl rfl rfl (by decide)

set_option maxRecDepth 8000 in
/-- C7 counterexample: the claim's particular 16-byte sequence
0x20,0x01,0x0d,0xb8,…,0x00,0x01,0x00,0x01, supplied as the payload of an
8×16-bit-group array argument with the Ipv6 hint, renders as
"120:b80d::100:100" (its little-endian 16-bit words are 0x0120, 0xb80d,
…, 0x0100, 0x0100), not "2001:db8::1:1" as the claim requires. -/
theorem ipv6_groups_cex :
    log_buf ipv6U16WrongBuf =
      ⟨.ok, [.log ⟨ascii "test", .info, some (ascii "test"), some (ascii "test.rs"),
        some 123, ascii "120:b80d::100:100"⟩, .flush]⟩ ∧
    ascii "120:b80d::100:100" ≠ ascii "2001:db8::1:1" := by
  constructor
  · decide
  · decide

set_option maxRecDepth 8000 in
/-- C7 amended: the 16-byte payload of an 8×16-bit-group array argument
is decoded two bytes at a time as little-endian 16-bit words (written
with explicit shifts, independent of the outer byte order), and with the
Ipv6 hint renders in standard IPv6 text form.  The byte sequence
0x20,0x01,0x0d,0xb8,…,0x00,0x01,0x00,0x01 produces the message
"2001:db8::1:1" when supplied as the 16-byte byte-array argument (whose
bytes are grouped in network order); as an 8×16-bit-group payload, the
groups of 2001:db8::1:1 must be supplied in little-endian byte order to
produce that message. -/
theorem ipv6_groups_amended :
    (∀ b0 b1 b2 b3 b4 b5 b6 b7 b8 b9 b10 b11 b12 b13 b14 b15 : Nat,
      u16sOfBytesLE [b0, b1, b2, b3, b4, b5, b6, b7, b8, b9, b10, b11, b12, b13, b14, b15] =
        [b0 + 256 * b1, b2 + 256 * b3, b4 + 256 * b5, b6 + 256 * b7, b8 + 256 * b9,
          b10 + 256 * b11, b12 + 256 * b13, b14 + 256 * b15]) ∧
    log_buf ipv6ByteArrBuf =
      ⟨.ok, [.log ⟨ascii "test", .info, some (ascii "test"), some (ascii "test.rs"),
        some 123, ascii "2001:db8::1:1"⟩, .flush]⟩ ∧
    log_buf ipv6U16Buf =
      ⟨.ok, [.log ⟨ascii "test", .info, some (ascii "test"), some (ascii "test.rs"),
        some 123, ascii "2001:db8::1:1"⟩, .flush]⟩ := by
  refine ⟨fun b0 b1 b2 b3 b4 b5 b6 b7 b8 b9 b10 b11 b12 b13 b14 b15 => rfl, ?_, ?_⟩
  · decide
  · decide

set_option maxRecDepth 8000 in
/-- C1 counterexample: in a record whose arguments are a LowerHex hint,
then the Str argument "a", then the U8 argument 200, the claim says the
hint is consumed by the next non-hint triple (the Str), so the U8 renders
as decimal "200" and the message is "a200".  The code's Str arm never
touches the pending hint (src/aya-log/src/lib.rs:546): the hint survives
and formats the U8 as hex, giving "ac8". -/
theorem hint_scoping_cex :
    log_buf hintThenStrBuf =
      ⟨.ok, [.log ⟨ascii "test", .info, some (ascii "test"), some (ascii "test.rs"),
        some 123, ascii "ac8"⟩, .flush]⟩ ∧
    ascii "ac8" ≠ ascii "a200" := by
  constructor
  · decide
  · decide

/-- C1 amended: a pending display hint is consumed (reset to none) by the
next value-bearing triple that is not string-typed, whether or not that
triple uses it successfully; a string-typed triple never touches the
pending hint (it survives to the next non-string value); and two
consecutive hints followed by a value apply only the second hint (the
first is overwritten without affecting the message). -/
theorem hint_scoping_amended :
    (∀ (msg : Buf) (hint : Option DisplayHint) (tag : ArgTag) (value rest msg1 : Buf)
      (hint1 : Option DisplayHint) (calls : List SinkCall),
      tag ≠ .displayHint → tag ≠ .str →
      argStep msg hint tag value rest = .ok (msg1, hint1, calls) → hint1 = none) ∧
    (∀ (msg : Buf) (hint : Option DisplayHint) (value rest msg1 : Buf)
      (hint1 : Option DisplayHint) (calls : List SinkCall),
      argStep msg hint .str value rest = .ok (msg1, hint1, calls) → hint1 = hint) ∧
    (∀ (n : Nat) (msg : Buf) (hint : Option DisplayHint) (dh1 dh2 : DisplayHint) (rest : Buf),
      argLoop (n + 1 + 1) msg hint (encHintTriple dh1 ++ (encHintTriple dh2 ++ rest)) =
        argLoop n msg (some dh2) rest) := by
  refine ⟨?_, ?_, ?_⟩
  · intro msg hint tag value rest msg1 hint1 calls hdh hstr hstep
    cases tag <;> simp only [argStep, pushFormatted] at hstep <;> repeat' split at hstep
    all_goals simp_all
  · intro msg hint value rest msg1 hint1 calls hstep
    simp only [argStep] at hstep
    split at hstep <;> simp_all
  · intro n msg hint dh1 dh2 rest
    rw [argLoop_hint (n + 1) msg hint dh1 (encHintTriple dh2 ++ rest),
      argLoop_hint n msg (some dh1) dh2 rest]

/-- C1 amended witness: the U8 argument 200 under a pending LowerHex hint
appends "c8" and clears the hint. -/
theorem hint_scoping_amended_witness :
    argStep [] (some .lowerHex) .u8 [200] [] = .ok (ascii "c8", none, []) ∧
    (none : Option DisplayHint) = none :=
  ⟨by decide,
    hint_scoping_amended.1 [] (some .lowerHex) .u8 [200] [] (ascii "c8") none []
      (by decide) (by decide) (by decide)⟩

/-- When the decoded header lacks Target or Level, `log_buf` never
reaches the sink: the outcome is not success and every call made is a
fallback diagnostic. -/
theorem log_buf_no_emit (buf : Buf) (h : Header) (rest : Buf)
    (hh : headerLoop LOG_FIELDS initHeader buf = .ok (h, rest))
    (habs : h.target = none ∨ h.level = none) :
    (log_buf buf).outcome ≠ .ok ∧ ∀ c ∈ (log_buf buf).calls, ∃ m, c = .fallback m := by
  rcases hn : h.num_args with _ | n
  · have heq : log_buf buf = ⟨.err, []⟩ := by simp only [log_buf, hh, hn]
    rw [heq]
    exact ⟨by simp, fun c hc => absurd hc (by simp)⟩
  · rcases hal : argLoop n [] none rest with ⟨calls, r⟩
    have hcf : ∀ c ∈ calls, ∃ m, c = .fallback m := by
      have h0 := argLoop_calls n [] none rest
      rw [hal] at h0
      exact h0
    rcases r with msg | f
    · rcases ht : h.target with _ | t
      · have heq : log_buf buf = ⟨.err, calls⟩ := by simp only [log_buf, hh, hn, hal, ht]
        rw [heq]
        exact ⟨by simp, hcf⟩
      · rcases hl : h.level with _ | l
        · have heq : log_buf buf = ⟨.err, calls⟩ := by
            simp only [log_buf, hh, hn, hal, ht, hl]
          rw [heq]
          exact ⟨by simp, hcf⟩
        · rcases habs with habs | habs
          · rw [habs] at ht; cases ht
          · rw [habs] at hl; cases hl
    · have heq : log_buf buf = ⟨faultOutcome f, calls⟩ := by simp only [log_buf, hh, hn, hal]
      rw [heq]
      rcases f with _ | _ <;> exact ⟨by simp [faultOutcome], hcf⟩

/-- C2 counterexample: a six-triple header with the Module tag twice, the
File tag never, and a two-byte Level value.  The claim says a tag
encountered more than once (or with wrong byte width) is a decode
failure; the code decodes this buffer successfully, keeping the second
Module value, recording File as absent, and reading only the first Level
byte. -/
theorem header_six_triples_cex :
    log_buf dupModuleBuf =
      ⟨.ok, [.log ⟨ascii "t", .info, some (ascii "m2"), none, some 1, []⟩, .flush]⟩ := by
  decide

/-- C2 amended: header decoding consumes exactly six triples; a header
tag seen again overwrites the earlier value instead of failing; wrong
byte width is a decode failure for Line (4 bytes) and NumArgs (8 bytes),
while the Level arm reads only the first byte after the length field
regardless of the declared width; at completion, a missing NumArgs,
Target or Level is a decode failure with nothing emitted to the sink, and
Module/File/Line may be recorded as absent. -/
theorem header_six_triples_amended :
    (∀ (h : Header) (v rest : Buf), utf8Valid v = true →
      headerStep h .module v rest = .ok { h with module := some v }) ∧
    (∀ (h : Header) (v rest : Buf), v.length ≠ 4 → headerStep h .line v rest = .fail .err) ∧
    (∀ (h : Header) (v rest : Buf), v.length ≠ 8 →
      headerStep h .numArgs v rest = .fail .err) ∧
    (∀ (h : Header) (b : Nat) (tail rest tail2 rest2 : Buf),
      headerStep h .level (b :: tail) rest = headerStep h .level (b :: tail2) rest2) ∧
    (∀ (buf : Buf) (h : Header) (rest : Buf),
      headerLoop LOG_FIELDS initHeader buf = .ok (h, rest) →
      stripTriples LOG_FIELDS buf = some rest ∧
      (h.num_args = none → log_buf buf = ⟨.err, []⟩) ∧
      ((h.target = none ∨ h.level = none) →
        (log_buf buf).outcome ≠ .ok ∧ ∀ c ∈ (log_buf buf).calls, ∃ m, c = .fallback m)) := by
  refine ⟨?_, ?_, ?_, ?_, ?_⟩
  · intro h v rest hv
    simp [headerStep, hv]
  · intro h v rest hne
    simp [headerStep, hne]
  · intro h v rest hne
    simp [headerStep, hne]
  · intro h b tail rest tail2 rest2
    simp [headerStep]
  · intro buf h rest hh
    refine ⟨headerLoop_strip LOG_FIELDS initHeader h buf rest hh, ?_, log_buf_no_emit buf h rest hh⟩
    intro hn
    simp only [log_buf, hh, hn]

/-- C2 amended witness: Module overwrite at the initial header state, and
the six-triple consumption of the counterexample buffer. -/
theorem header_six_triples_amended_witness :
    headerStep initHeader .module (ascii "m") [] =
      .ok { initHeader with module := some (ascii "m") } ∧
    stripTriples LOG_FIELDS dupModuleBuf = some [] :=
  ⟨header_six_triples_amended.1 initHeader (ascii "m") [] (by decide),
    (header_six_triples_amended.2.2.2.2 dupModuleBuf
      ⟨some (ascii "t"), some .info, some (ascii "m2"), none, some 1, some 0⟩ [] (by decide)).1⟩
